import Mathlib

/-!
Shallow embedding of the raxml-ng concurrent search-and-optimization core
(src/TreeInfo.cpp): the TreeInfo likelihood-state manager, the partition
creation helpers, the bootstrap load-rebalancing remap, and the load-time
validation checks.  External libpll kernel calls are modelled by explicit
oracle inputs (their returned values and error signals); all control flow,
arithmetic and data shaping of the C++ code itself is embedded directly.
-/

namespace RaxmlNG

/-- Ascertainment bias correction kinds (the `AscBiasCorrection` enum of the
model; its values double as libpll attribute bits OR-ed into `attrs`). -/
inductive AscBiasCorrection where
  | none
  | lewis
  | felsenstein
  | stamatakis
deriving DecidableEq

/-- Branch-length linkage modes (`PLLMOD_COMMON_BRLEN_{LINKED,SCALED,UNLINKED}` /
`PLLMOD_TREE_BRLEN_SCALED`). -/
inductive BrlenLinkage where
  | linked
  | scaled
  | unlinked
deriving DecidableEq

/-- `PartitionRange`: a contiguous slice of one partition's sites owned by one
worker, with the per-partition master flag (`part_range.master()`). -/
structure PartitionRange where
  part_id : Nat
  start : Nat
  length : Nat
  master : Bool
deriving DecidableEq

/-- The slice of the model actually read by the embedded code: ascertainment
settings, rate-category / state counts, alpha, branch-length scaler, an opaque
payload `params` standing for the substitution-model parameters copied by
`assign(partition, model)`, and the model's parameter-optimization bitmask. -/
structure Model where
  ascbias_type : AscBiasCorrection
  ascbias_weights : List Rat
  num_ratecats : Nat
  num_states : Nat
  alpha : Rat
  brlen_scaler : Rat
  params : Int
  params_to_optimize : Nat
deriving DecidableEq

/-- The slice of an MSA read by the embedded code: number of sequences, site
count, per-site weights and the raw character sequences. -/
structure MSA where
  size : Nat
  length : Nat
  weights : List Nat
  seqs : List (List Char)
deriving DecidableEq

/-- One partition's data: its model and its MSA slice (`PartitionInfo`). -/
structure PartitionInfo where
  model : Model
  msa : MSA
deriving DecidableEq

/-- Partitioned MSA: partition count plus per-partition info accessor. -/
structure PartitionedMSA where
  part_count : Nat
  part_info : Nat → PartitionInfo

/-- The options fields read by the embedded code. -/
structure Options where
  simd_arch : Nat
  use_rate_scalers : Bool
  use_tip_inner : Bool
  use_repeats : Bool
  use_prob_msa : Bool
  optimize_model : Bool
  optimize_brlen : Bool
  brlen_linkage : BrlenLinkage
  force_mode : Bool
deriving DecidableEq

/-- The weights of the sites a range covers, read through `weights[start + j]`
for `j < length` (out-of-range reads default to 0; theorems that need real
memory semantics carry an in-bounds hypothesis). -/
def range_slice (weights : List Nat) (r : PartitionRange) : List Nat :=
  (List.range r.length).map (fun j => weights.getD (r.start + j) 0)

/-- Number of positive-weight sites inside a range (the `count_if` of
`create_pll_partition`). -/
def pos_count (weights : List Nat) (r : PartitionRange) : Nat :=
  (range_slice weights r).countP (fun w => decide (0 < w))

/-- `part_length` of `create_pll_partition`: the range length when the weight
vector is empty, otherwise the number of positive-weight sites in the range
(columns with zero weight are not counted). -/
def part_length (weights : List Nat) (r : PartitionRange) : Nat :=
  if weights.isEmpty then r.length else pos_count weights r

/-- The `comp_weights` array of the weighted `set_partition_tips`: the weights
of the range with all zero entries removed. -/
def comp_weights (weights : List Nat) (r : PartitionRange) : List Nat :=
  (range_slice weights r).filter (fun w => decide (0 < w))

/-- The compressed tip sequence (`bs_seq`) of the weighted
`set_partition_tips`: characters of the range whose site weight is positive,
in order. -/
def bs_seq (weights : List Nat) (r : PartitionRange) (seq : List Char) : List Char :=
  ((List.range r.length).filter (fun j => decide (0 < weights.getD (r.start + j) 0))).map
    (fun j => seq.getD (r.start + j) 'x')

/-- Which tip-initialization path `create_pll_partition` takes. -/
inductive TipPath where
  | plain
  | weighted
deriving DecidableEq

/-- The attribute flags assembled by `create_pll_partition`.  libpll packs
these into disjoint bit fields of one `unsigned int`; the embedding keeps them
as named fields.  `ab_bits` is the ascertainment type value OR-ed into `attrs`
(`AscBiasCorrection.none` when the asc-bias block is not entered). -/
structure PartAttrs where
  simd : Nat
  rate_scalers : Bool
  pattern_tip : Bool
  site_repeats : Bool
  ab_flag : Bool
  ab_bits : AscBiasCorrection
deriving DecidableEq

/-- The `attrs` computation of `create_pll_partition` (given that none of its
option-validation throws fired): per-rate scalers when requested and more than
one rate category; tip-inner when requested and the MSA is longer than 100;
site repeats when requested (without tip-inner) and the MSA is longer than 16;
the ascertainment-bias flag when the correction is `lewis`, or is enabled and
the range is the partition's master. -/
def create_attrs (opts : Options) (model : Model) (msa_length : Nat)
    (part_region : PartitionRange) : PartAttrs :=
  { simd := opts.simd_arch
    rate_scalers := opts.use_rate_scalers && decide (1 < model.num_ratecats)
    pattern_tip := opts.use_tip_inner && decide (100 < msa_length)
    site_repeats := opts.use_repeats && !opts.use_tip_inner && decide (16 < msa_length)
    ab_flag := decide (model.ascbias_type = AscBiasCorrection.lewis) ||
               (decide (model.ascbias_type ≠ AscBiasCorrection.none) && part_region.master)
    ab_bits :=
      if model.ascbias_type = AscBiasCorrection.lewis ∨
         (model.ascbias_type ≠ AscBiasCorrection.none ∧ part_region.master = true) then
        model.ascbias_type
      else AscBiasCorrection.none }

/-- Whether `create_pll_partition` calls `pll_set_asc_state_weights` for this
range: only on the partition's master range, and only when the model carries
explicit ascertainment state weights. -/
def sets_asc_weights (model : Model) (part_region : PartitionRange) : Bool :=
  part_region.master && !model.ascbias_weights.isEmpty

/-- Observable result of `create_pll_partition`: the attribute flags, the site
count passed to `pll_partition_create`, whether `pll_set_asc_state_weights`
was called, which tip-initialization path ran, and the model payload copied by
`assign(partition, model)`. -/
structure PllPartition where
  attrs : PartAttrs
  sites : Nat
  asc_weights_set : Bool
  tip_path : TipPath
  params : Int
deriving DecidableEq

/-- `create_pll_partition`.  The kernel call `pll_partition_create` may fail
(return NULL); that outcome is the oracle input `kernel_create_ok`.  The two
option-validation throws and the order of all checks follow the source. -/
def create_pll_partition (opts : Options) (pinfo : PartitionInfo)
    (part_region : PartitionRange) (weights : List Nat) (kernel_create_ok : Bool) :
    Except String PllPartition :=
  if opts.use_rate_scalers ∧ 1 < pinfo.model.num_ratecats ∧ pinfo.model.num_states ≠ 4 then
    Except.error "Per-rate scalers are implemented for DNA data only"
  else if opts.use_repeats ∧ opts.use_tip_inner then
    Except.error "Repeats and tip-inner optimizations are incompatible"
  else if kernel_create_ok = false then
    Except.error "ERROR creating pll_partition"
  else
    let plen := part_length weights part_region
    Except.ok
      { attrs := create_attrs opts pinfo.model pinfo.msa.length part_region
        sites := plen
        asc_weights_set := sets_asc_weights pinfo.model part_region
        tip_path := if plen = part_region.length then TipPath.plain else TipPath.weighted
        params := pinfo.model.params }

/-- `comp_pos_map` of the bootstrap `balance_load`: the original indices of all
sites with positive post-resampling weight, in increasing order. -/
def comp_pos_map (weights : List Nat) : List Nat :=
  (List.range weights.length).filter (fun s => decide (0 < weights.getD s 0))

/-- The compressed-to-original coordinate translation applied to each
`PartitionRange` at the end of the bootstrap `balance_load`:
`start = comp_start > 0 ? pos_map[comp_start] : 0` and
`length = pos_map[comp_start + length - 1] - start + 1`. -/
def remap_part_range (pos_map : List Nat) (r : PartitionRange) : PartitionRange :=
  let comp_start := r.start
  let new_start := if 0 < comp_start then pos_map.getD comp_start 0 else 0
  { r with start := new_start
           length := pos_map.getD (comp_start + r.length - 1) 0 - new_start + 1 }

/-- `TreeInfo::spr_round`: the kernel routine `pllmod_algo_spr_round` reports
failure for the round by returning 0 (with `pll_errmsg` set); any nonzero
return is the round's log-likelihood.  The code returns the value unchanged
when it is nonzero and throws otherwise. -/
def spr_round (kernel_loglh : Rat) : Except String Rat :=
  if kernel_loglh ≠ 0 then Except.ok kernel_loglh
  else Except.error "ERROR in SPR round"

/-- Markers for the optimization steps executed by `optimize_params` /
`optimize_branches`: the five model-parameter classes, the branch-length
scaler one-dimensional optimization, the scaler renormalization, the iterative
branch-length refinement stage, and (at `optimize_params` level) the whole
`optimize_branches` call. -/
inductive OptStep where
  | substRates
  | freqs
  | alpha
  | pinv
  | freeRates
  | brlenScalers
  | normScalers
  | brlensIter
  | brlens
deriving DecidableEq

/-- The treeinfo fields read and written by the optimization entry points.
The parameter classes are opaque `Int` payloads standing for the vectors the
kernel overwrites.  `branches_iterative0` is the
`PLLMOD_OPT_PARAM_BRANCHES_ITERATIVE` bit of the stored
`params_to_optimize[0]` that `optimize_branches` re-checks. -/
structure TreeInfoState where
  branches_iterative0 : Bool
  brlen_linkage : BrlenLinkage
  partition_count : Nat
  subst_rates : Int
  freqs : Int
  alpha : Int
  pinv : Int
  free_rates : Int
  brlen_scalers : Int
  branch_lengths : Int
deriving DecidableEq

/-- Oracle for one round of kernel optimizer calls: the new parameter payloads
each kernel optimizer writes, the (negated) log-likelihoods the kernel
routines return, the `pll_errno` signals, and the deterministic scaler
renormalization `pllmod_treeinfo_normalize_brlen_scalers` acting on the
(scalers, branch lengths) pair. -/
structure KernelOpt where
  new_subst_rates : Int
  new_freqs : Int
  new_alpha : Int
  new_pinv : Int
  new_free_rates : Int
  neg_rates_lh : Rat
  neg_freqs_lh : Rat
  neg_alpha_lh : Rat
  neg_pinv_lh : Rat
  neg_freer_lh : Rat
  blo_new_branch_lengths : Int
  blo_neg_lh : Rat
  blo_errno : Bool
  scaler_new : Int
  scaler_neg_lh : Rat
  scaler_errno : Bool
  norm_scalers : Int → Int → Int × Int

/-- `TreeInfo::optimize_branches`.  `full_loglh` is the value of the initial
full `loglh()` recomputation.  Stage 1 (iterative branch-length optimization)
runs only when the stored `params_to_optimize[0]` has the iterative bit; its
`pll_errno` is checked and raised.  Stage 2 (scaler optimization followed by
renormalization) runs under proportional linkage with more than one partition;
its `pll_errno` (`scaler_errno`) is never inspected by the source.  Returns
the final state, the executed-step trace and the returned log-likelihood. -/
def optimize_branches (st : TreeInfoState) (full_loglh : Rat) (k : KernelOpt) :
    Except String (TreeInfoState × List OptStep × Rat) :=
  if st.branches_iterative0 then
    if k.blo_errno then
      Except.error "ERROR in branch lenght optimization"
    else if st.brlen_linkage = BrlenLinkage.scaled ∧ 1 < st.partition_count then
      Except.ok
        ({ st with
             brlen_scalers := (k.norm_scalers k.scaler_new k.blo_new_branch_lengths).1
             branch_lengths := (k.norm_scalers k.scaler_new k.blo_new_branch_lengths).2 },
         [OptStep.brlensIter, OptStep.brlenScalers, OptStep.normScalers],
         -1 * k.scaler_neg_lh)
    else
      Except.ok ({ st with branch_lengths := k.blo_new_branch_lengths },
                 [OptStep.brlensIter], -1 * k.blo_neg_lh)
  else
    if st.brlen_linkage = BrlenLinkage.scaled ∧ 1 < st.partition_count then
      Except.ok
        ({ st with
             brlen_scalers := (k.norm_scalers k.scaler_new st.branch_lengths).1
             branch_lengths := (k.norm_scalers k.scaler_new st.branch_lengths).2 },
         [OptStep.brlenScalers, OptStep.normScalers],
         -1 * k.scaler_neg_lh)
    else
      Except.ok (st, [], full_loglh)

/-- The request bits of the `params_to_optimize` argument of
`TreeInfo::optimize_params` (`PLLMOD_OPT_PARAM_SUBST_RATES`, `FREQUENCIES`,
`ALPHA`, `PINV`, `FREE_RATES`, `BRANCHES_ITERATIVE`). -/
structure ParamFlags where
  subst_rates : Bool
  freqs : Bool
  alpha : Bool
  pinv : Bool
  free_rates : Bool
  branches_iterative : Bool
deriving DecidableEq

/-- `TreeInfo::optimize_params`.  Each requested class is optimized in source
order; after the free-rates class, scalers are renormalized (and branch
lengths rescaled) when the linkage is proportional and there is more than one
partition; the branch-length class is optimized last by calling
`optimize_branches` (recorded as one `OptStep.brlens` step; its internal
stages act on the state as in `optimize_branches`).  `uninit` stands for the
indeterminate initial value of the local `new_loglh`, returned when no class
is requested. -/
def optimize_params (flags : ParamFlags) (st : TreeInfoState) (full_loglh : Rat)
    (uninit : Rat) (k : KernelOpt) : Except String (TreeInfoState × List OptStep × Rat) :=
  let s1 := if flags.subst_rates then { st with subst_rates := k.new_subst_rates } else st
  let t1 : List OptStep := if flags.subst_rates then [OptStep.substRates] else []
  let l1 := if flags.subst_rates then -1 * k.neg_rates_lh else uninit
  let s2 := if flags.freqs then { s1 with freqs := k.new_freqs } else s1
  let t2 := t1 ++ (if flags.freqs then [OptStep.freqs] else [])
  let l2 := if flags.freqs then -1 * k.neg_freqs_lh else l1
  let s3 := if flags.alpha then { s2 with alpha := k.new_alpha } else s2
  let t3 := t2 ++ (if flags.alpha then [OptStep.alpha] else [])
  let l3 := if flags.alpha then -1 * k.neg_alpha_lh else l2
  let s4 := if flags.pinv then { s3 with pinv := k.new_pinv } else s3
  let t4 := t3 ++ (if flags.pinv then [OptStep.pinv] else [])
  let l4 := if flags.pinv then -1 * k.neg_pinv_lh else l3
  let s5 :=
    if flags.free_rates then
      let sa := { s4 with free_rates := k.new_free_rates }
      if st.brlen_linkage = BrlenLinkage.scaled ∧ 1 < st.partition_count then
        let n := k.norm_scalers sa.brlen_scalers sa.branch_lengths
        { sa with brlen_scalers := n.1, branch_lengths := n.2 }
      else sa
    else s4
  let t5 := t4 ++
    (if flags.free_rates then
       OptStep.freeRates ::
         (if st.brlen_linkage = BrlenLinkage.scaled ∧ 1 < st.partition_count then
            [OptStep.normScalers]
          else [])
     else [])
  let l5 := if flags.free_rates then -1 * k.neg_freer_lh else l4
  if flags.branches_iterative then
    match optimize_branches s5 full_loglh k with
    | Except.error e => Except.error e
    | Except.ok (s6, _, lh6) => Except.ok (s6, t5 ++ [OptStep.brlens], lh6)
  else
    Except.ok (s5, t5, l5)

/-- The optimization order prescribed by the claim: substitution rates, base
frequencies, gamma shape, proportion-invariant, free rates (followed by the
scaler renormalization when proportional linkage is active with more than one
partition), then branch lengths; absent classes are skipped.  This definition
follows the claim's words and is compared with the trace the source
produces. -/
def claimed_param_order (flags : ParamFlags) (scaled_multi : Bool) : List OptStep :=
  (if flags.subst_rates then [OptStep.substRates] else []) ++
  (if flags.freqs then [OptStep.freqs] else []) ++
  (if flags.alpha then [OptStep.alpha] else []) ++
  (if flags.pinv then [OptStep.pinv] else []) ++
  (if flags.free_rates then
     OptStep.freeRates :: (if scaled_multi then [OptStep.normScalers] else [])
   else []) ++
  (if flags.branches_iterative then [OptStep.brlens] else [])

/-- The per-partition parameter-optimization flags assembled at the top of
`TreeInfo::init`: the model's own mask when model optimization is on, the
iterative-branch-length bit when branch-length optimization is on, and the
branch-length-scaler bit when the model is optimized under proportional
linkage with more than one partition. -/
structure OptMask where
  model_params : Nat
  branches_iterative : Bool
  brlen_scaler : Bool
deriving DecidableEq

/-- The `params_to_optimize` value `TreeInfo::init` computes for partition
info `m` of a run with `part_count` partitions. -/
def init_opt_mask (opts : Options) (part_count : Nat) (m : Model) : OptMask :=
  { model_params := if opts.optimize_model then m.params_to_optimize else 0
    branches_iterative := opts.optimize_brlen
    brlen_scaler := opts.optimize_model && decide (opts.brlen_linkage = BrlenLinkage.scaled)
                      && decide (1 < part_count) }

/-- The site-weight vector used for partition `p`: the per-partition override
when one was passed (bootstrap), else the partition MSA's own weights. -/
def weights_for (site_weights : List (List Nat)) (pinfo : PartitionInfo) (p : Nat) :
    List Nat :=
  if site_weights.isEmpty then pinfo.msa.weights else site_weights.getD p []

/-- One iteration of the `TreeInfo::init` partition loop: when the assignment
gives this worker a range of partition `p`, create the kernel partition (which
may fail) and register it with the treeinfo (`pllmod_treeinfo_init_partition`,
whose success is the oracle `pinit_ok p`), remembering whether the range is
the partition's master; otherwise create nothing. -/
def init_one (opts : Options) (parted_msa : PartitionedMSA) (site_weights : List (List Nat))
    (part_assign : Nat → Option PartitionRange) (pcreate_ok pinit_ok : Nat → Bool)
    (p : Nat) : Except String (Option PllPartition × Bool) :=
  match part_assign p with
  | Option.none => Except.ok (Option.none, false)
  | Option.some r =>
    match create_pll_partition opts (parted_msa.part_info p) r
        (weights_for site_weights (parted_msa.part_info p) p) (pcreate_ok p) with
    | Except.error e => Except.error e
    | Except.ok part =>
      if pinit_ok p then Except.ok (Option.some part, r.master)
      else Except.error "ERROR adding treeinfo partition"

/-- The `TreeInfo::init` partition loop over a list of partition ids,
collecting the per-partition kernel-partition slots and the master set. -/
def init_go (opts : Options) (parted_msa : PartitionedMSA) (site_weights : List (List Nat))
    (part_assign : Nat → Option PartitionRange) (pcreate_ok pinit_ok : Nat → Bool) :
    List Nat → Except String (List (Option PllPartition) × List Nat)
  | [] => Except.ok ([], [])
  | p :: ps =>
    match init_one opts parted_msa site_weights part_assign pcreate_ok pinit_ok p with
    | Except.error e => Except.error e
    | Except.ok (slot, mast) =>
      match init_go opts parted_msa site_weights part_assign pcreate_ok pinit_ok ps with
      | Except.error e => Except.error e
      | Except.ok (slots, masters) =>
        Except.ok (slot :: slots, if mast then p :: masters else masters)

/-- Observable result of `TreeInfo::init`: the per-partition kernel partition
slots (NULL for partitions owned elsewhere), the recorded per-partition
optimization flags, and the set of partitions this worker is master of. -/
structure TreeInfoInitResult where
  partitions : List (Option PllPartition)
  params_to_optimize : List OptMask
  parts_master : List Nat
deriving DecidableEq

/-- `TreeInfo::init`: fails when `pllmod_treeinfo_create` fails
(`treeinfo_create_ok` oracle), then runs the partition loop; every partition's
optimization flags are recorded (passed to the kernel for owned partitions,
stored directly for the others). -/
def TreeInfo_init (opts : Options) (parted_msa : PartitionedMSA)
    (site_weights : List (List Nat)) (part_assign : Nat → Option PartitionRange)
    (treeinfo_create_ok : Bool) (pcreate_ok pinit_ok : Nat → Bool) :
    Except String TreeInfoInitResult :=
  if treeinfo_create_ok = false then
    Except.error "ERROR creating treeinfo structure"
  else
    match init_go opts parted_msa site_weights part_assign pcreate_ok pinit_ok
        (List.range parted_msa.part_count) with
    | Except.error e => Except.error e
    | Except.ok (slots, masters) =>
      Except.ok
        { partitions := slots
          params_to_optimize := (List.range parted_msa.part_count).map
            (fun p => init_opt_mask opts parted_msa.part_count (parted_msa.part_info p).model)
          parts_master := masters }

/-- The fatal validation checks of `check_msa` covered by the claim: fewer
than 4 sequences, then duplicate sequence names (`dup_taxa_pairs_count > 0`,
computed by the kernel's MSA statistics). -/
def check_msa (taxon_count dup_taxa_pairs : Nat) : Except String Unit :=
  if taxon_count < 4 then
    Except.error "Your alignment contains less than 4 sequences"
  else if 0 < dup_taxa_pairs then
    Except.error "Please fix your alignment"
  else
    Except.ok ()

/-- The validation step of `load_msa`: `check_msa` runs only when force mode
is off (`if (!opts.force_mode) check_msa(instance);`). -/
def load_msa_check (force_mode : Bool) (taxon_count dup_taxa_pairs : Nat) :
    Except String Unit :=
  if force_mode then Except.ok () else check_msa taxon_count dup_taxa_pairs

/-- The normalized per-thread pattern count of `master_main`:
`min_thread_sites * (states / 4.) * (num_threads < 8 ? 3 : 1)` truncated to an
integer.  The double arithmetic is exact here (division by 4 and small integer
products), so the truncation equals this natural-number division. -/
def norm_thread_pats (min_thread_sites num_threads states : Nat) : Nat :=
  min_thread_sites * states * (if num_threads < 8 then 3 else 1) / 4

/-- The corrective thread-count suggestion printed with the warning:
`trunc(total_sites / (soft_limit * 2)) + 1` with `soft_limit = 600`. -/
def opt_threads_suggestion (total_sites : Nat) : Nat :=
  total_sites / (600 * 2) + 1

/-- The maximum state count over all partitions, as computed in `master_main`
(seeded with partition 0's state count, folded with `max` over the list). -/
def max_states (state_counts : List Nat) : Nat :=
  state_counts.foldl Nat.max (state_counts.headD 0)

/-- The patterns-per-thread check of `master_main`: only on the master rank of
a run with more than one process; below the soft limit (600) a warning with
the thread-count suggestion is emitted; below the hard limit (150) the run is
additionally aborted unless force mode is set.  Returns the emitted suggestion
(if any) and the fatal outcome; nothing else is modified. -/
def check_thread_pats (master_rank : Bool) (num_procs num_threads : Nat)
    (min_thread_sites total_sites states : Nat) (force_mode : Bool) :
    Option Nat × Except String Unit :=
  if master_rank ∧ 1 < num_procs then
    if norm_thread_pats min_thread_sites num_threads states < 600 then
      if norm_thread_pats min_thread_sites num_threads states < 150 ∧ force_mode = false then
        (Option.some (opt_threads_suggestion total_sites),
         Except.error "Too few patterns per thread")
      else
        (Option.some (opt_threads_suggestion total_sites), Except.ok ())
    else (Option.none, Except.ok ())
  else (Option.none, Except.ok ())

/-- The treeinfo fields touched by the model setter `TreeInfo::model`:
per-partition kernel-partition slots (an opaque parameter payload, NULL for
partitions owned elsewhere), the per-partition alphas, and the optional
branch-length scaler array (NULL unless proportional linkage allocated it). -/
structure TreeInfoModels where
  partitions : List (Option Int)
  alphas : List Rat
  brlen_scalers : Option (List Rat)
deriving DecidableEq

/-- `TreeInfo::model(partition_id, model)`: out-of-range ids throw before any
write; a NULL slot returns with no change; an owned slot gets the model's
parameters, alpha, and (when the scaler array exists) branch-length scaler.
The pair returns the resulting object state and the thrown message, if any. -/
def TreeInfo_model (st : TreeInfoModels) (partition_id : Nat) (m : Model) :
    TreeInfoModels × Option String :=
  if st.partitions.length ≤ partition_id then
    (st, Option.some "Partition ID out of range")
  else if (st.partitions.getD partition_id Option.none).isNone then
    (st, Option.none)
  else
    ({ partitions := st.partitions.set partition_id (Option.some m.params)
       alphas := st.alphas.set partition_id m.alpha
       brlen_scalers := st.brlen_scalers.map (fun l => l.set partition_id m.brlen_scaler) },
     Option.none)

/-! Concrete fixtures used by witnesses and counterexamples. -/

/-- A plain option set: no SIMD, no optional kernel attributes, model and
branch lengths optimized, linked branch lengths, no force mode. -/
def sample_opts : Options :=
  { simd_arch := 0
    use_rate_scalers := false
    use_tip_inner := false
    use_repeats := false
    use_prob_msa := false
    optimize_model := true
    optimize_brlen := true
    brlen_linkage := BrlenLinkage.linked
    force_mode := false }

/-- A 4-state model with no ascertainment-bias correction. -/
def sample_model : Model :=
  { ascbias_type := AscBiasCorrection.none
    ascbias_weights := []
    num_ratecats := 4
    num_states := 4
    alpha := 1
    brlen_scaler := 1
    params := 0
    params_to_optimize := 0 }

/-- A 4-taxon, 3-site MSA whose middle site has zero weight. -/
def sample_msa : MSA :=
  { size := 4
    length := 3
    weights := [1, 0, 2]
    seqs := [['A', 'C', 'G'], ['A', 'C', 'T'], ['A', 'G', 'G'], ['C', 'C', 'G']] }

/-- Partition info pairing `sample_model` with `sample_msa`. -/
def sample_pinfo : PartitionInfo :=
  { model := sample_model, msa := sample_msa }

/-- A single-partition partitioned MSA built from `sample_pinfo`. -/
def sample_parted_msa : PartitionedMSA :=
  { part_count := 1, part_info := fun _ => sample_pinfo }

/-- The master range covering `sample_msa` entirely. -/
def sample_range : PartitionRange :=
  { part_id := 0, start := 0, length := 3, master := true }

/-- A non-master range of the same partition (as held by a second worker). -/
def sample_range_other : PartitionRange :=
  { part_id := 0, start := 1, length := 2, master := false }

/-- A quiescent treeinfo state: iterative-branch-length bit unset, linked
branch lengths, one partition, all parameter payloads zero. -/
def sample_state : TreeInfoState :=
  { branches_iterative0 := false
    brlen_linkage := BrlenLinkage.linked
    partition_count := 1
    subst_rates := 0
    freqs := 0
    alpha := 0
    pinv := 0
    free_rates := 0
    brlen_scalers := 0
    branch_lengths := 0 }

/-- A kernel oracle whose optimizers all return payload 0 and log-likelihood
0, signal no errors, and whose scaler renormalization is the identity. -/
def sample_kernel : KernelOpt :=
  { new_subst_rates := 0
    new_freqs := 0
    new_alpha := 0
    new_pinv := 0
    new_free_rates := 0
    neg_rates_lh := 0
    neg_freqs_lh := 0
    neg_alpha_lh := 0
    neg_pinv_lh := 0
    neg_freer_lh := 0
    blo_new_branch_lengths := 0
    blo_neg_lh := 0
    blo_errno := false
    scaler_new := 0
    scaler_neg_lh := 0
    scaler_errno := false
    norm_scalers := fun a b => (a, b) }

/-- The kernel partition object `create_pll_partition` builds from the sample
fixtures: 2 positive-weight sites out of 3, weighted tip path. -/
def sample_partition : PllPartition :=
  { attrs := create_attrs sample_opts sample_model 3 sample_range
    sites := 2
    asc_weights_set := false
    tip_path := TipPath.weighted
    params := 0 }

/-- `sample_opts` with both the site-repeats and tip-inner optimizations
requested — an invalid combination rejected by `create_pll_partition`. -/
def sample_opts_rep_ti : Options :=
  { sample_opts with
      use_repeats := true
      use_tip_inner := true }

/-- `sample_model` with the Lewis ascertainment-bias correction. -/
def sample_model_lewis : Model :=
  { sample_model with ascbias_type := AscBiasCorrection.lewis }

/-- `sample_model` with the Stamatakis ascertainment-bias correction and
explicit ascertainment state weights. -/
def sample_model_stam : Model :=
  { sample_model with
      ascbias_type := AscBiasCorrection.stamatakis
      ascbias_weights := [1] }

/-- All six parameter classes requested. -/
def sample_flags_all : ParamFlags :=
  { subst_rates := true
    freqs := true
    alpha := true
    pinv := true
    free_rates := true
    branches_iterative := true }

/-!
Theorems.
-/

/-- C3.  `spr_round` raises a search error if and only if the kernel reports
failure for the round (`pllmod_algo_spr_round` signals failure by returning
0); when the kernel does not report failure, `spr_round` returns the round's
log-likelihood value unchanged. -/
theorem c3_spr_round_error_iff (k : Rat) :
    ((∃ e, spr_round k = Except.error e) ↔ k = 0) ∧
    (k ≠ 0 → spr_round k = Except.ok k) := by
  constructor
  · constructor
    · rintro ⟨e, he⟩
      by_contra hk
      simp [spr_round, hk] at he
    · intro hk
      exact ⟨"ERROR in SPR round", by simp [spr_round, hk]⟩
  · intro hk
    simp [spr_round, hk]

/-- Witness for C3: a round whose kernel value is 1 returns it unchanged. -/
theorem c3_witness : spr_round 1 = Except.ok 1 :=
  (c3_spr_round_error_iff 1).2 (by norm_num)

/-- C7 counterexample.  With force mode enabled, `load_msa` skips `check_msa`
entirely: an alignment with 3 sequences (fewer than 4), and one with
duplicate sequence names (2 duplicate-name pairs), both pass loading without
any fatal error, contradicting the claim that such problems are always
detected and always abort the run. -/
theorem c7_counterexample :
    load_msa_check true 3 0 = Except.ok () ∧ load_msa_check true 5 2 = Except.ok () :=
  ⟨rfl, rfl⟩

/-- C7 amended.  Unless force mode is enabled, loading aborts with a fatal
error exactly when the alignment has fewer than 4 sequences or at least one
pair of duplicate sequence names; under force mode the checks are skipped. -/
theorem c7_load_validation_amended (force_mode : Bool) (taxon_count dup_taxa_pairs : Nat)
    (hforce : force_mode = false) :
    (∃ e, load_msa_check force_mode taxon_count dup_taxa_pairs = Except.error e) ↔
      (taxon_count < 4 ∨ 0 < dup_taxa_pairs) := by
  subst hforce
  unfold load_msa_check check_msa
  by_cases h4 : taxon_count < 4
  · simp [h4]
  · by_cases hd : 0 < dup_taxa_pairs
    · simp [h4, hd]
    · simp [h4, hd]

/-- Witness for C7 amended: without force mode, a 3-sequence alignment is
rejected at load time. -/
theorem c7_witness : ∃ e, load_msa_check false 3 0 = Except.error e :=
  (c7_load_validation_amended false 3 0 rfl).mpr (Or.inl (by norm_num))

/-- C8.  On the master rank of a multi-process run: when the normalized
per-thread pattern count is below the hard limit (150) and no force override
is set, the run aborts with a fatal error; in the advisory band (at least 150
but below 600), and also below 150 with the override set, a non-fatal warning
carrying the corrective thread-count suggestion is emitted and the run
continues; at or above 600 nothing happens.  The check computes nothing but
the warning and the outcome, so results are unchanged when it passes. -/
theorem c8_pattern_check (master_rank : Bool) (num_procs num_threads : Nat)
    (min_thread_sites total_sites states : Nat) (force_mode : Bool)
    (hmaster : master_rank = true) (hprocs : 1 < num_procs) :
    (norm_thread_pats min_thread_sites num_threads states < 150 ∧ force_mode = false →
       check_thread_pats master_rank num_procs num_threads min_thread_sites total_sites
           states force_mode
         = (Option.some (opt_threads_suggestion total_sites),
            Except.error "Too few patterns per thread")) ∧
    (150 ≤ norm_thread_pats min_thread_sites num_threads states ∧
         norm_thread_pats min_thread_sites num_threads states < 600 →
       check_thread_pats master_rank num_procs num_threads min_thread_sites total_sites
           states force_mode
         = (Option.some (opt_threads_suggestion total_sites), Except.ok ())) ∧
    (norm_thread_pats min_thread_sites num_threads states < 600 ∧ force_mode = true →
       check_thread_pats master_rank num_procs num_threads min_thread_sites total_sites
           states force_mode
         = (Option.some (opt_threads_suggestion total_sites), Except.ok ())) ∧
    (600 ≤ norm_thread_pats min_thread_sites num_threads states →
       check_thread_pats master_rank num_procs num_threads min_thread_sites total_sites
           states force_mode
         = (Option.none, Except.ok ())) := by
  subst hmaster
  have hc : (true : Bool) = true ∧ 1 < num_procs := ⟨rfl, hprocs⟩
  unfold check_thread_pats
  rw [if_pos hc]
  refine ⟨?_, ?_, ?_, ?_⟩
  · rintro ⟨h1, h2⟩
    rw [if_pos (show norm_thread_pats min_thread_sites num_threads states < 600 by omega),
        if_pos ⟨h1, h2⟩]
  · rintro ⟨h1, h2⟩
    rw [if_pos h2, if_neg (show ¬(norm_thread_pats min_thread_sites num_threads states < 150 ∧
          force_mode = false) from fun hh => absurd hh.1 (by omega))]
  · rintro ⟨h1, h2⟩
    rw [if_pos h1, if_neg (show ¬(norm_thread_pats min_thread_sites num_threads states < 150 ∧
          force_mode = false) from fun hh => by rw [h2] at hh; simp at hh)]
  · intro h1
    rw [if_neg (by omega)]

/-- Witness for C8: 2 processes, 2 threads, 100 sites on the smallest thread,
4 states gives a normalized count of 300 — inside the advisory band — so the
warning with the thread suggestion is emitted and the run continues. -/
theorem c8_witness :
    check_thread_pats true 2 2 100 5000 4 false
      = (Option.some (opt_threads_suggestion 5000), Except.ok ()) :=
  (c8_pattern_check true 2 2 100 5000 4 false rfl (by norm_num)).2.1 (by decide)

/-- C9.  The model setter `TreeInfo::model`: an out-of-range partition id
throws (before any write, so the state is returned unchanged); a valid id
whose kernel partition is NULL (owned by another worker) returns normally and
changes nothing; an owned partition gets exactly its model parameters, alpha
and — when the scaler array exists — branch-length scaler overwritten, all
other partitions untouched.  The two well-formedness hypotheses say the
parallel per-partition arrays have the partition count's length. -/
theorem c9_model_setter (st : TreeInfoModels) (pid : Nat) (m : Model)
    (halpha : st.alphas.length = st.partitions.length)
    (hsc : ∀ l, st.brlen_scalers = Option.some l → l.length = st.partitions.length) :
    (st.partitions.length ≤ pid →
       TreeInfo_model st pid m = (st, Option.some "Partition ID out of range")) ∧
    (pid < st.partitions.length → (st.partitions.getD pid Option.none).isNone →
       TreeInfo_model st pid m = (st, Option.none)) ∧
    (pid < st.partitions.length → (st.partitions.getD pid Option.none).isSome →
       (TreeInfo_model st pid m).2 = Option.none ∧
       (TreeInfo_model st pid m).1.partitions.getD pid Option.none = Option.some m.params ∧
       (TreeInfo_model st pid m).1.alphas.getD pid 0 = m.alpha ∧
       (∀ l, st.brlen_scalers = Option.some l →
          ∃ l2, (TreeInfo_model st pid m).1.brlen_scalers = Option.some l2 ∧
            l2.getD pid 0 = m.brlen_scaler) ∧
       (st.brlen_scalers = Option.none →
          (TreeInfo_model st pid m).1.brlen_scalers = Option.none) ∧
       (∀ q, q ≠ pid →
          (TreeInfo_model st pid m).1.partitions.getD q Option.none
              = st.partitions.getD q Option.none ∧
          (TreeInfo_model st pid m).1.alphas.getD q 0 = st.alphas.getD q 0 ∧
          (TreeInfo_model st pid m).1.brlen_scalers.map (fun l => l.getD q 0)
              = st.brlen_scalers.map (fun l => l.getD q 0))) := by
  refine ⟨?_, ?_, ?_⟩
  · intro hle
    unfold TreeInfo_model
    rw [if_pos hle]
  · intro hlt hnone
    unfold TreeInfo_model
    rw [if_neg (by omega), if_pos hnone]
  · intro hlt hsome
    unfold TreeInfo_model
    rw [if_neg (by omega),
        if_neg (show ¬(st.partitions.getD pid Option.none).isNone by
          simp only [Option.isNone_iff_eq_none]
          intro hh
          rw [hh] at hsome
          simp at hsome)]
    refine ⟨rfl, ?_, ?_, ?_, ?_, ?_⟩
    · simp [List.getD_eq_getElem?_getD, List.getElem?_set_self hlt]
    · simp [List.getD_eq_getElem?_getD, List.getElem?_set_self (halpha ▸ hlt)]
    · intro l hl
      refine ⟨l.set pid m.brlen_scaler, by simp [hl], ?_⟩
      have hll : pid < l.length := by rw [hsc l hl]; exact hlt
      simp [List.getD_eq_getElem?_getD, List.getElem?_set_self hll]
    · intro hl
      simp [hl]
    · intro q hq
      refine ⟨?_, ?_, ?_⟩
      · simp [List.getD_eq_getElem?_getD, List.getElem?_set_ne (fun hh => hq hh.symm)]
      · simp [List.getD_eq_getElem?_getD, List.getElem?_set_ne (fun hh => hq hh.symm)]
      · cases hbs : st.brlen_scalers with
        | none => simp
        | some l =>
          simp [List.getD_eq_getElem?_getD, List.getElem?_set_ne (fun hh => hq hh.symm)]

/-- Witness for C9: a two-partition state where partition 0 is owned and
partition 1 is not; setting the model of partition 0 succeeds, overwrites its
payload, alpha and scaler, and leaves partition 1 untouched. -/
theorem c9_witness :
    (TreeInfo_model
        { partitions := [Option.some 7, Option.none], alphas := [1, 2],
          brlen_scalers := Option.some [1, 1] } 0 sample_model).2 = Option.none ∧
    (TreeInfo_model
        { partitions := [Option.some 7, Option.none], alphas := [1, 2],
          brlen_scalers := Option.some [1, 1] } 0 sample_model).1.partitions.getD 0 Option.none
      = Option.some sample_model.params := by
  have h := (c9_model_setter
      { partitions := [Option.some 7, Option.none], alphas := [1, 2],
        brlen_scalers := Option.some [1, 1] } 0 sample_model rfl
      (fun l hl => by cases hl; rfl)).2.2 (by norm_num) (by decide)
  exact ⟨h.1, h.2.1⟩

/-- C4 counterexample.  Under proportional linkage with 2 partitions (so the
scaler-optimization stage runs), the kernel signals an error during that
stage (`scaler_errno = true`), yet `optimize_branches` returns normally
instead of raising a numerical error: the source checks `pll_errno` only
after the iterative per-branch stage, never after the scaler stage.  This
refutes the claim that a kernel error during any optimization stage raises. -/
theorem c4_counterexample :
    (∃ out, optimize_branches
        { sample_state with brlen_linkage := BrlenLinkage.scaled, partition_count := 2 }
        0 { sample_kernel with scaler_errno := true } = Except.ok out) ∧
    ({ sample_kernel with scaler_errno := true } : KernelOpt).scaler_errno = true :=
  ⟨⟨_, rfl⟩, rfl⟩

/-- C4 amended.  `optimize_branches` raises a numerical error exactly when
the iterative per-branch stage runs (the stored iterative bit is set) and the
kernel signals an error during it; a kernel error signalled during the
per-partition scaler-optimization stage is never checked.  Otherwise the call
returns the log-likelihood of the last stage executed: the scaler stage when
it runs, else the per-branch stage, else the initial full evaluation. -/
theorem c4_optimize_branches_amended (st : TreeInfoState) (full_loglh : Rat) (k : KernelOpt) :
    ((∃ e, optimize_branches st full_loglh k = Except.error e) ↔
       (st.branches_iterative0 = true ∧ k.blo_errno = true)) ∧
    (¬(st.branches_iterative0 = true ∧ k.blo_errno = true) →
       ∃ st2 tr, optimize_branches st full_loglh k =
         Except.ok (st2, tr,
           if st.brlen_linkage = BrlenLinkage.scaled ∧ 1 < st.partition_count then
             -1 * k.scaler_neg_lh
           else if st.branches_iterative0 = true then -1 * k.blo_neg_lh
           else full_loglh)) := by
  unfold optimize_branches
  by_cases hbi : st.branches_iterative0 <;> by_cases herr : k.blo_errno <;>
    by_cases hsm : st.brlen_linkage = BrlenLinkage.scaled ∧ 1 < st.partition_count <;>
    simp [hbi, herr, hsm]

/-- Witness for C4 amended: with the iterative bit unset and no error
signals, the call returns the initial full-evaluation log-likelihood. -/
theorem c4_witness :
    ∃ st2 tr, optimize_branches sample_state 3 sample_kernel =
      Except.ok (st2, tr,
        if sample_state.brlen_linkage = BrlenLinkage.scaled ∧
             1 < sample_state.partition_count then
          -1 * sample_kernel.scaler_neg_lh
        else if sample_state.branches_iterative0 = true then -1 * sample_kernel.blo_neg_lh
        else 3) :=
  (c4_optimize_branches_amended sample_state 3 sample_kernel).2 (by decide)

/-- C1 counterexample.  A partition with the Lewis ascertainment-bias
correction split across two workers (exactly one range is master): BOTH
workers' kernel partitions get the ascertainment-bias attribute, because the
source sets it for `lewis` regardless of the master flag.  So the correction
is not applied by exactly one worker's kernel partition as the claim
states. -/
theorem c1_counterexample :
    [sample_range, sample_range_other].countP
        (fun r => (create_attrs sample_opts sample_model_lewis 3 r).ab_flag) = 2 ∧
    [sample_range, sample_range_other].countP (fun r => r.master) = 1 := by
  decide

/-- C1 amended.  For an enabled non-Lewis ascertainment-bias correction
(felsenstein/stamatakis), the bias-correction attribute is set on exactly one
worker's kernel partition — the one built from the master range — and the
explicit ascertainment state weights are installed exactly once (on the
master range) whenever the model carries them; for the Lewis correction the
attribute is set on every range's partition (the Lewis term decomposes over
sub-partition weight sums, so per-range application still amounts to one
partition-wide correction). -/
theorem c1_bias_applied_once_amended (opts : Options) (model : Model) (msa_length : Nat)
    (ranges : List PartitionRange)
    (hmaster : ranges.countP (fun r => r.master) = 1) :
    ((model.ascbias_type ≠ AscBiasCorrection.none ∧
        model.ascbias_type ≠ AscBiasCorrection.lewis) →
       ranges.countP (fun r => (create_attrs opts model msa_length r).ab_flag) = 1) ∧
    (model.ascbias_type = AscBiasCorrection.lewis →
       ∀ r ∈ ranges, (create_attrs opts model msa_length r).ab_flag = true) ∧
    (ranges.countP (fun r => sets_asc_weights model r)
       = if model.ascbias_weights.isEmpty then 0 else 1) := by
  refine ⟨?_, ?_, ?_⟩
  · rintro ⟨hne, hnl⟩
    have hcongr : ranges.countP (fun r => (create_attrs opts model msa_length r).ab_flag)
        = ranges.countP (fun r => r.master) :=
      List.countP_congr (fun r _ => by simp [create_attrs, hne, hnl])
    rw [hcongr, hmaster]
  · intro hl r _
    simp [create_attrs, hl]
  · by_cases hw : model.ascbias_weights.isEmpty
    · simp only [if_pos hw]
      have hcongr : ranges.countP (fun r => sets_asc_weights model r)
          = ranges.countP (fun _ => false) :=
        List.countP_congr (fun r _ => by simp [sets_asc_weights, hw])
      simp [hcongr]
    · simp only [if_neg hw]
      have hcongr : ranges.countP (fun r => sets_asc_weights model r)
          = ranges.countP (fun r => r.master) :=
        List.countP_congr (fun r _ => by simp [sets_asc_weights, hw])
      rw [hcongr, hmaster]

/-- Witness for C1 amended: a stamatakis-corrected partition split across two
workers gets the bias attribute on exactly one kernel partition. -/
theorem c1_witness :
    [sample_range, sample_range_other].countP
        (fun r => (create_attrs sample_opts sample_model_stam 3 r).ab_flag) = 1 :=
  (c1_bias_applied_once_amended sample_opts sample_model_stam 3
      [sample_range, sample_range_other] (by decide)).1 ⟨by decide, by decide⟩

/-- `comp_pos_map` lists original indices in strictly increasing order. -/
theorem comp_pos_map_pairwise (weights : List Nat) :
    (comp_pos_map weights).Pairwise (· < ·) :=
  List.Pairwise.filter _ (List.pairwise_lt_range _)

/-- Every entry of `comp_pos_map` is the index of a positive-weight site. -/
theorem comp_pos_map_pos (weights : List Nat) (i : Nat)
    (hi : i < (comp_pos_map weights).length) :
    0 < weights.getD ((comp_pos_map weights).getD i 0) 0 := by
  have hmem : (comp_pos_map weights).getD i 0 ∈ comp_pos_map weights := by
    rw [List.getD_eq_getElem _ _ hi]
    exact List.getElem_mem hi
  simp only [comp_pos_map, List.mem_filter] at hmem
  exact of_decide_eq_true hmem.2

/-- `comp_pos_map` is monotone in its index. -/
theorem comp_pos_map_mono (weights : List Nat) (i j : Nat) (hij : i ≤ j)
    (hj : j < (comp_pos_map weights).length) :
    (comp_pos_map weights).getD i 0 ≤ (comp_pos_map weights).getD j 0 := by
  have hi : i < (comp_pos_map weights).length := Nat.lt_of_le_of_lt hij hj
  rcases Nat.eq_or_lt_of_le hij with heq | hlt
  · rw [heq]
  · rw [List.getD_eq_getElem _ _ hi, List.getD_eq_getElem _ _ hj]
    exact Nat.le_of_lt (List.pairwise_iff_getElem.mp (comp_pos_map_pairwise weights)
      i j hi hj hlt)

/-- C2 counterexample.  Bootstrap weights `[0, 1]` (site 0 resampled away):
the compressed index map is `[1]`, and the range covering compressed site 0
is translated to original coordinates as start 0, length 2 — i.e. the
returned range `[0, 2)` contains the zero-weight site 0 and does NOT start at
original index 1, the first positive-weight site, because the source clamps a
range with compressed start 0 to original start 0. -/
theorem c2_counterexample :
    comp_pos_map [0, 1] = [1] ∧
    remap_part_range (comp_pos_map [0, 1])
        { part_id := 0, start := 0, length := 1, master := true }
      = { part_id := 0, start := 0, length := 2, master := true } ∧
    [0, 1].getD 0 0 = 0 := by
  decide

/-- C2 amended.  Zero-weight sites are excluded from the compressed
coordinates the balancer works in; after the translation back to original
coordinates, a range ends exactly at the original index of its last
positive-weight site, and starts at the original index of its first
positive-weight site whenever its compressed start is positive — a range with
compressed start 0 is clamped to original start 0 instead (so leading or
interior zero-weight sites may lie inside the returned bounds; they are
skipped later during partition construction). -/
theorem c2_remap_amended (weights : List Nat) (r : PartitionRange)
    (hlen : 0 < r.length)
    (hb : r.start + r.length ≤ (comp_pos_map weights).length) :
    (0 < r.start →
       (remap_part_range (comp_pos_map weights) r).start
         = (comp_pos_map weights).getD r.start 0) ∧
    (r.start = 0 → (remap_part_range (comp_pos_map weights) r).start = 0) ∧
    ((remap_part_range (comp_pos_map weights) r).start
         + (remap_part_range (comp_pos_map weights) r).length - 1
       = (comp_pos_map weights).getD (r.start + r.length - 1) 0) ∧
    (0 < r.start →
       0 < weights.getD ((remap_part_range (comp_pos_map weights) r).start) 0) ∧
    0 < weights.getD ((comp_pos_map weights).getD (r.start + r.length - 1) 0) 0 := by
  have hlast : r.start + r.length - 1 < (comp_pos_map weights).length := by omega
  by_cases hs : 0 < r.start
  · have hstart_lt : r.start < (comp_pos_map weights).length := by omega
    have hmono := comp_pos_map_mono weights r.start (r.start + r.length - 1) (by omega) hlast
    refine ⟨fun _ => ?_, fun h0 => absurd h0 (by omega), ?_, fun _ => ?_, ?_⟩
    · simp only [remap_part_range]
      rw [if_pos hs]
    · simp only [remap_part_range]
      rw [if_pos hs]
      omega
    · simp only [remap_part_range]
      rw [if_pos hs]
      exact comp_pos_map_pos weights r.start hstart_lt
    · exact comp_pos_map_pos weights _ hlast
  · refine ⟨fun hc => absurd hc hs, fun _ => ?_, ?_, fun hc => absurd hc hs, ?_⟩
    · simp only [remap_part_range]
      rw [if_neg hs]
    · simp only [remap_part_range]
      rw [if_neg hs]
      omega
    · exact comp_pos_map_pos weights _ hlast

/-- Witness for C2 amended: weights `[0, 1, 0, 1]`, the range covering
compressed site 1 (positive compressed start) is remapped to start at
original index 3, its first positive-weight site. -/
theorem c2_witness :
    (remap_part_range (comp_pos_map [0, 1, 0, 1])
        { part_id := 0, start := 1, length := 1, master := false }).start
      = (comp_pos_map [0, 1, 0, 1]).getD 1 0 :=
  (c2_remap_amended [0, 1, 0, 1] { part_id := 0, start := 1, length := 1, master := false }
      (by norm_num) (by decide)).1 (by norm_num)

/-- The weights a range covers form a list of exactly `length` entries. -/
theorem range_slice_length (weights : List Nat) (r : PartitionRange) :
    (range_slice weights r).length = r.length := by
  simp [range_slice]

/-- The positive-weight site count of a range never exceeds its length. -/
theorem pos_count_le (weights : List Nat) (r : PartitionRange) :
    pos_count weights r ≤ r.length := by
  rw [← range_slice_length weights r]
  exact List.countP_le_length _

/-- The positive-weight site count equals the range length exactly when every
site of the range has positive weight. -/
theorem pos_count_eq_length_iff (weights : List Nat) (r : PartitionRange) :
    pos_count weights r = r.length ↔
      ∀ j, j < r.length → 0 < weights.getD (r.start + j) 0 := by
  unfold pos_count
  rw [← range_slice_length weights r, List.countP_eq_length]
  simp [range_slice]

/-- The compressed weight array has exactly one entry per positive-weight
site of the range. -/
theorem comp_weights_length (weights : List Nat) (r : PartitionRange) :
    (comp_weights weights r).length = pos_count weights r := by
  unfold comp_weights pos_count
  exact (List.countP_eq_length_filter (fun w => decide (0 < w)) (range_slice weights r)).symm

/-- The compressed tip sequence has exactly one character per positive-weight
site of the range. -/
theorem bs_seq_length (weights : List Nat) (r : PartitionRange) (seq : List Char) :
    (bs_seq weights r seq).length = pos_count weights r := by
  simp only [bs_seq, pos_count, range_slice, List.length_map,
    ← List.countP_eq_length_filter, List.countP_map]
  rfl

/-- C10.  For every worker range and site-weight vector: the site count
passed to `pll_partition_create` equals the number of positive-weight sites
of the range (and equals the full range length when the weight vector is
empty); the zero-weight-skipping tip-initialization path is taken exactly
when some site of the range has zero weight; in that path the compressed
weight array and the compressed tip sequences both have exactly that many
entries. -/
theorem c10_partition_sites (opts : Options) (pinfo : PartitionInfo) (kok : Bool)
    (weights : List Nat) (r : PartitionRange) (seq : List Char) (res : PllPartition)
    (hw : weights ≠ []) (hb : r.start + r.length ≤ weights.length)
    (hcreate : create_pll_partition opts pinfo r weights kok = Except.ok res) :
    res.sites = pos_count weights r ∧
    (∀ r2 : PartitionRange, part_length [] r2 = r2.length) ∧
    (res.tip_path = TipPath.weighted ↔
       ∃ j, j < r.length ∧ weights.getD (r.start + j) 0 = 0) ∧
    (comp_weights weights r).length = pos_count weights r ∧
    (bs_seq weights r seq).length = pos_count weights r := by
  have hne : weights.isEmpty = false := by
    cases weights with
    | nil => exact absurd rfl hw
    | cons a l => rfl
  unfold create_pll_partition at hcreate
  split at hcreate
  · exact Except.noConfusion hcreate
  · split at hcreate
    · exact Except.noConfusion hcreate
    · split at hcreate
      · exact Except.noConfusion hcreate
      · injection hcreate with h
        subst h
        have hpl : part_length weights r = pos_count weights r := by
          simp [part_length, hne]
        refine ⟨?_, ?_, ?_, ?_, ?_⟩
        · show part_length weights r = pos_count weights r
          exact hpl
        · intro r2
          simp [part_length]
        · show (if part_length weights r = r.length then TipPath.plain else TipPath.weighted)
              = TipPath.weighted ↔ _
          rw [hpl]
          by_cases hall : pos_count weights r = r.length
          · rw [if_pos hall]
            constructor
            · intro hcontra
              exact absurd hcontra (by simp)
            · rintro ⟨j, hj, hz⟩
              have := (pos_count_eq_length_iff weights r).mp hall j hj
              omega
          · rw [if_neg hall]
            constructor
            · intro _
              by_contra hno
              push_neg at hno
              exact hall ((pos_count_eq_length_iff weights r).mpr (fun j hj => by
                have := hno j hj
                omega))
            · intro _
              rfl
        · exact comp_weights_length weights r
        · exact bs_seq_length weights r seq

/-- Witness for C10: weights `[1, 0, 2]` over the full 3-site range give a
kernel partition of 2 sites. -/
theorem c10_witness :
    sample_partition.sites = pos_count [1, 0, 2] sample_range :=
  (c10_partition_sites sample_opts sample_pinfo true [1, 0, 2] sample_range
      ['A', 'C', 'G'] sample_partition (by decide) (by decide) rfl).1

/-- A successful `optimize_branches` call touches only branch lengths and
scalers: the five model-parameter classes and the configuration fields are
returned unchanged. -/
theorem optimize_branches_preserves (st : TreeInfoState) (lh : Rat) (k : KernelOpt)
    (st2 : TreeInfoState) (tr : List OptStep) (v : Rat)
    (h : optimize_branches st lh k = Except.ok (st2, tr, v)) :
    st2.subst_rates = st.subst_rates ∧ st2.freqs = st.freqs ∧ st2.alpha = st.alpha ∧
    st2.pinv = st.pinv ∧ st2.free_rates = st.free_rates := by
  unfold optimize_branches at h
  repeat' split at h
  all_goals try exact Except.noConfusion h
  all_goals
    simp only [Except.ok.injEq, Prod.mk.injEq] at h
    obtain ⟨h1, _h2, _h3⟩ := h
    subst h1
    simp

/-- C5.  `optimize_params` executes exactly the requested parameter classes,
in the fixed order: substitution rates, base frequencies, gamma shape,
proportion-invariant, free rates (followed by the branch-length-scaler
renormalization when proportional linkage is active with more than one
partition), then branch lengths; the parameter payloads of unrequested
classes are unchanged — for the branch-length class, unchanged provided the
claimed renormalization (which rescales stored branch lengths while keeping
effective lengths) did not run. -/
theorem c5_optimize_params_order (flags : ParamFlags) (st : TreeInfoState)
    (full_loglh uninit : Rat) (k : KernelOpt) (out : TreeInfoState × List OptStep × Rat)
    (h : optimize_params flags st full_loglh uninit k = Except.ok out) :
    out.2.1 = claimed_param_order flags
        (decide (st.brlen_linkage = BrlenLinkage.scaled ∧ 1 < st.partition_count)) ∧
    (flags.subst_rates = false → out.1.subst_rates = st.subst_rates) ∧
    (flags.freqs = false → out.1.freqs = st.freqs) ∧
    (flags.alpha = false → out.1.alpha = st.alpha) ∧
    (flags.pinv = false → out.1.pinv = st.pinv) ∧
    (flags.free_rates = false → out.1.free_rates = st.free_rates) ∧
    (flags.branches_iterative = false →
       ¬(flags.free_rates = true ∧ st.brlen_linkage = BrlenLinkage.scaled ∧
           1 < st.partition_count) →
       out.1.branch_lengths = st.branch_lengths) := by
  rcases flags with ⟨fr, ff, fa, fp, fe, fb⟩
  cases fb
  case false =>
    cases fr <;> cases ff <;> cases fa <;> cases fp <;> cases fe <;>
      by_cases hsm : st.brlen_linkage = BrlenLinkage.scaled ∧ 1 < st.partition_count
    all_goals
      simp only [optimize_params] at h
      simp [hsm] at h
      subst h
      simp_all [claimed_param_order]
  case true =>
    cases fr <;> cases ff <;> cases fa <;> cases fp <;> cases fe <;>
      by_cases hsm : st.brlen_linkage = BrlenLinkage.scaled ∧ 1 < st.partition_count
    all_goals
      simp only [optimize_params] at h
      simp [hsm] at h
      split at h
      next => exact Except.noConfusion h
      next s6 tr6 lh6 heq =>
        have hp := optimize_branches_preserves _ _ _ _ _ _ heq
        simp only [Except.ok.injEq] at h
        subst h
        simp_all [claimed_param_order]

/-- Witness for C5: with all six classes requested on the sample state, the
executed trace is exactly the claimed order. -/
theorem c5_witness :
    ((sample_state, [OptStep.substRates, OptStep.freqs, OptStep.alpha, OptStep.pinv,
        OptStep.freeRates, OptStep.brlens], (0 : Rat)) :
          TreeInfoState × List OptStep × Rat).2.1
      = claimed_param_order sample_flags_all
          (decide (sample_state.brlen_linkage = BrlenLinkage.scaled ∧
            1 < sample_state.partition_count)) :=
  (c5_optimize_params_order sample_flags_all sample_state 0 0 sample_kernel
      (sample_state, [OptStep.substRates, OptStep.freqs, OptStep.alpha, OptStep.pinv,
        OptStep.freeRates, OptStep.brlens], 0) rfl).1

/-- One `init` loop iteration succeeds exactly when, if this worker owns a
range of the partition, the kernel partition is created and registered
successfully. -/
theorem init_one_ok_iff (opts : Options) (pm : PartitionedMSA) (sw : List (List Nat))
    (assign : Nat → Option PartitionRange) (pcok piok : Nat → Bool) (p : Nat) :
    (∃ v, init_one opts pm sw assign pcok piok p = Except.ok v) ↔
      (∀ r, assign p = Option.some r →
         (∃ part, create_pll_partition opts (pm.part_info p) r
             (weights_for sw (pm.part_info p) p) (pcok p) = Except.ok part) ∧
         piok p = true) := by
  unfold init_one
  cases hassign : assign p with
  | none => simp
  | some r =>
    simp only []
    cases hcr : create_pll_partition opts (pm.part_info p) r
        (weights_for sw (pm.part_info p) p) (pcok p) with
    | error e => simp [hcr]
    | ok part =>
      cases hpi : piok p with
      | false => simp [hcr, hpi]
      | true => simp [hcr, hpi]

/-- A successful `init` loop iteration yields a non-NULL kernel partition
slot exactly when the assignment gives this worker a range of the
partition. -/
theorem init_one_slot (opts : Options) (pm : PartitionedMSA) (sw : List (List Nat))
    (assign : Nat → Option PartitionRange) (pcok piok : Nat → Bool) (p : Nat)
    (slot : Option PllPartition) (mast : Bool)
    (h : init_one opts pm sw assign pcok piok p = Except.ok (slot, mast)) :
    slot.isSome = (assign p).isSome := by
  cases hassign : assign p with
  | none =>
    simp only [init_one, hassign, Except.ok.injEq, Prod.mk.injEq] at h
    rw [← h.1]
    rfl
  | some r =>
    simp only [init_one, hassign] at h
    split at h
    · exact Except.noConfusion h
    · split at h
      · simp only [Except.ok.injEq, Prod.mk.injEq] at h
        rw [← h.1]
        rfl
      · exact Except.noConfusion h

/-- The `init` partition loop succeeds exactly when every owned partition is
created and registered successfully. -/
theorem init_go_ok_iff (opts : Options) (pm : PartitionedMSA) (sw : List (List Nat))
    (assign : Nat → Option PartitionRange) (pcok piok : Nat → Bool) (ps : List Nat) :
    (∃ res, init_go opts pm sw assign pcok piok ps = Except.ok res) ↔
      ∀ p ∈ ps, ∀ r, assign p = Option.some r →
        (∃ part, create_pll_partition opts (pm.part_info p) r
            (weights_for sw (pm.part_info p) p) (pcok p) = Except.ok part) ∧
        piok p = true := by
  induction ps with
  | nil => simp [init_go]
  | cons p ps ih =>
    simp only [init_go]
    cases hone : init_one opts pm sw assign pcok piok p with
    | error e =>
      constructor
      · rintro ⟨res, hres⟩
        exact absurd hres (by simp)
      · intro hall
        have hok : ∀ r, assign p = Option.some r →
            (∃ part, create_pll_partition opts (pm.part_info p) r
                (weights_for sw (pm.part_info p) p) (pcok p) = Except.ok part) ∧
            piok p = true :=
          fun r hr => hall p (List.mem_cons_self p ps) r hr
        obtain ⟨v, hv⟩ := (init_one_ok_iff opts pm sw assign pcok piok p).mpr hok
        rw [hone] at hv
        exact Except.noConfusion hv
    | ok v =>
      obtain ⟨slot, mast⟩ := v
      cases hgo : init_go opts pm sw assign pcok piok ps with
      | error e =>
        constructor
        · rintro ⟨res, hres⟩
          exact absurd hres (by simp)
        · intro hall
          have : ∃ res, init_go opts pm sw assign pcok piok ps = Except.ok res :=
            ih.mpr (fun q hq => hall q (List.mem_cons_of_mem p hq))
          obtain ⟨res, hres⟩ := this
          rw [hgo] at hres
          exact Except.noConfusion hres
      | ok res2 =>
        obtain ⟨slots, masters⟩ := res2
        constructor
        · intro _
          intro q hq r hr
          rcases List.mem_cons.mp hq with heq | hq2
          · subst heq
            exact ((init_one_ok_iff opts pm sw assign pcok piok q).mp ⟨(slot, mast), hone⟩) r hr
          · exact (ih.mp ⟨(slots, masters), hgo⟩) q hq2 r hr
        · intro _
          exact ⟨(slot :: slots, if mast then p :: masters else masters), rfl⟩

/-- A successful `init` partition loop returns one slot per processed
partition, non-NULL exactly for the partitions the assignment covers. -/
theorem init_go_slots (opts : Options) (pm : PartitionedMSA) (sw : List (List Nat))
    (assign : Nat → Option PartitionRange) (pcok piok : Nat → Bool) (ps : List Nat)
    (slots : List (Option PllPartition)) (masters : List Nat)
    (h : init_go opts pm sw assign pcok piok ps = Except.ok (slots, masters)) :
    slots.length = ps.length ∧
    ∀ i, i < ps.length →
      (slots.getD i Option.none).isSome = (assign (ps.getD i 0)).isSome := by
  induction ps generalizing slots masters with
  | nil =>
    simp only [init_go, Except.ok.injEq, Prod.mk.injEq] at h
    obtain ⟨h1, _h2⟩ := h
    rw [← h1]
    exact ⟨rfl, fun i hi => absurd hi (by simp)⟩
  | cons p ps ih =>
    simp only [init_go] at h
    cases hone : init_one opts pm sw assign pcok piok p with
    | error e =>
      rw [hone] at h
      exact Except.noConfusion h
    | ok v =>
      obtain ⟨slot, mast⟩ := v
      rw [hone] at h
      cases hgo : init_go opts pm sw assign pcok piok ps with
      | error e =>
        rw [hgo] at h
        exact Except.noConfusion h
      | ok res2 =>
        obtain ⟨slots2, masters2⟩ := res2
        rw [hgo] at h
        simp only [Except.ok.injEq, Prod.mk.injEq] at h
        obtain ⟨h1, _h2⟩ := h
        subst h1
        obtain ⟨ihl, ihs⟩ := ih slots2 masters2 hgo
        refine ⟨by simp [ihl], ?_⟩
        intro i hi
        cases i with
        | zero =>
          exact init_one_slot opts pm sw assign pcok piok p slot mast hone
        | succ j =>
          have hj : j < ps.length := by simpa using hi
          exact ihs j hj

/-- C6 counterexample.  All kernel oracles accept (treeinfo creation,
partition creation and partition registration all succeed), yet construction
raises an error, because `create_pll_partition` itself rejects the option
combination of site repeats with tip-inner — so "raises a construction error
exactly when the kernel rejects the treeinfo structure or a partition
initialization" is false. -/
theorem c6_counterexample :
    TreeInfo_init sample_opts_rep_ti sample_parted_msa []
        (fun _ => Option.some sample_range) true (fun _ => true) (fun _ => true)
      = Except.error "Repeats and tip-inner optimizations are incompatible" := rfl

/-- C6 amended.  `TreeInfo::init` creates a kernel partition object for a
partition if and only if the assignment gives this worker a range of it; the
recorded per-partition optimization flags are exactly the masks computed from
the options and models (for partitions owned elsewhere this is all that is
recorded); and it raises a construction error exactly when the kernel rejects
the treeinfo structure, or some owned partition's creation fails (a kernel
rejection, or an invalid option combination detected by
`create_pll_partition`), or the kernel rejects a partition registration. -/
theorem c6_treeinfo_init_amended (opts : Options) (pm : PartitionedMSA)
    (sw : List (List Nat)) (assign : Nat → Option PartitionRange)
    (tok : Bool) (pcok piok : Nat → Bool) :
    (tok = false → TreeInfo_init opts pm sw assign tok pcok piok
        = Except.error "ERROR creating treeinfo structure") ∧
    (∀ st, TreeInfo_init opts pm sw assign tok pcok piok = Except.ok st →
       st.partitions.length = pm.part_count ∧
       (∀ p, p < pm.part_count →
          (st.partitions.getD p Option.none).isSome = (assign p).isSome) ∧
       st.params_to_optimize = (List.range pm.part_count).map
         (fun p => init_opt_mask opts pm.part_count (pm.part_info p).model)) ∧
    ((∃ st, TreeInfo_init opts pm sw assign tok pcok piok = Except.ok st) ↔
       (tok = true ∧ ∀ p, p < pm.part_count → ∀ r, assign p = Option.some r →
          (∃ part, create_pll_partition opts (pm.part_info p) r
              (weights_for sw (pm.part_info p) p) (pcok p) = Except.ok part) ∧
          piok p = true)) := by
  refine ⟨?_, ?_, ?_⟩
  · intro htok
    unfold TreeInfo_init
    rw [if_pos htok]
  · intro st hst
    unfold TreeInfo_init at hst
    split at hst
    · exact Except.noConfusion hst
    · split at hst
      · exact Except.noConfusion hst
      · next slots masters heq =>
        simp only [Except.ok.injEq] at hst
        subst hst
        obtain ⟨hlen, hslots⟩ :=
          init_go_slots opts pm sw assign pcok piok (List.range pm.part_count)
            slots masters heq
        refine ⟨by simpa using hlen, ?_, rfl⟩
        intro p hp
        have hrange : (List.range pm.part_count).getD p 0 = p := by
          rw [List.getD_eq_getElem _ _ (by simpa using hp)]
          exact List.getElem_range _ _
        have := hslots p (by simpa using hp)
        rwa [hrange] at this
  · constructor
    · rintro ⟨st, hst⟩
      unfold TreeInfo_init at hst
      split at hst
      · exact Except.noConfusion hst
      · next htokcond =>
        refine ⟨by revert htokcond; cases tok <;> simp, ?_⟩
        split at hst
        · exact Except.noConfusion hst
        · next slots masters heq =>
          intro p hp r hr
          exact (init_go_ok_iff opts pm sw assign pcok piok
              (List.range pm.part_count)).mp ⟨(slots, masters), heq⟩
            p (List.mem_range.mpr hp) r hr
    · rintro ⟨htok, hall⟩
      unfold TreeInfo_init
      rw [if_neg (by simp [htok])]
      have hgo : ∃ res, init_go opts pm sw assign pcok piok
          (List.range pm.part_count) = Except.ok res :=
        (init_go_ok_iff opts pm sw assign pcok piok (List.range pm.part_count)).mpr
          (fun p hp r hr => hall p (List.mem_range.mp hp) r hr)
      obtain ⟨⟨slots, masters⟩, heq⟩ := hgo
      rw [heq]
      exact ⟨_, rfl⟩

/-- Witness for C6 amended: with every kernel oracle accepting and a valid
option set, construction of the single-partition sample succeeds. -/
theorem c6_witness :
    ∃ st, TreeInfo_init sample_opts sample_parted_msa []
        (fun _ => Option.some sample_range) true (fun _ => true) (fun _ => true)
      = Except.ok st :=
  (c6_treeinfo_init_amended sample_opts sample_parted_msa []
      (fun _ => Option.some sample_range) true (fun _ => true) (fun _ => true)).2.2.mpr
    ⟨rfl, fun p hp r hr => by
      injection hr with hr2
      subst hr2
      exact ⟨⟨sample_partition, rfl⟩, rfl⟩⟩

end RaxmlNG
